import Mathlib

/-!
Verification of the iterative text-refinement convergence loop of the
good-news repository, embedded from src/utils/editor.py.

Modelling conventions:
  - Python integers are ℤ.
  - The momentum parameter of smooth_score is a Python float; it is modelled
    as an exact rational.  For the value actually used by the loop
    (momentum = 0.6 with integer previous and base), the quantity
    target - previous equals 0.4 * (base - previous), whose exact value has
    fractional part in the set 0, 0.2, 0.4, 0.6, 0.8 and hence lies at
    distance at least 0.1 from every rounding boundary; double-precision
    error on these magnitudes is below 1e-12, so the exact rational
    computation reproduces the float computation bit for bit at the
    rounding step.
  - Python round is round-half-to-even (pyRound below).
  - grade_base and humanize_article call an external language model.  The
    loop is therefore verified over two oracle collaborators: scorer k is
    the integer returned by the k-th call to grade_base during the run
    (grade_base clamps its result to [1,100]), and rewriter models
    humanize_article.  The deterministic preprocessing steps
    (scrub_boilerplate and the lede de-templating call, which is itself an
    external collaborator) produce the initial text t0 handed to the loop.
  - The three return statements of refine_article are labelled with the
    Outcome values named by the specification (CONVERGED, STAGNATED,
    EXHAUSTED); RunResult.final records the values of the local loop
    variables at the return point, and RunResult.text is the string the
    Python function returns.
-/

namespace GoodNews

/-- Python round: round half to even, as applied by smooth_score via
int(round(target - previous)). -/
def pyRound (q : ℚ) : ℤ :=
  if q - ⌊q⌋ < 1/2 then ⌊q⌋
  else if 1/2 < q - ⌊q⌋ then ⌊q⌋ + 1
  else if ⌊q⌋ % 2 = 0 then ⌊q⌋ else ⌊q⌋ + 1

/-- smooth_score from src/utils/editor.py lines 133-159: exponential
smoothing toward base with a deadband, a per-step cap, and a final clamp
to [1,100]. -/
def smooth_score (previous : Option ℤ) (base : ℤ) (momentum : ℚ)
    (deadband : ℤ) (max_step : ℤ) : ℤ :=
  match previous with
  | none => base
  | some prev =>
    let delta := base - prev
    if |delta| ≤ deadband then prev
    else
      let target : ℚ := (prev : ℚ) * momentum + (base : ℚ) * (1 - momentum)
      let step0 := pyRound (target - (prev : ℚ))
      let step :=
        if 0 < step0 then min step0 max_step
        else if step0 < 0 then max step0 (-max_step)
        else step0
      max 1 (min 100 (prev + step))

/-- Python str.isdigit, restricted to the character domain used in the
development: on ASCII characters it agrees exactly with Python (true
precisely on the decimal digits 0-9), and it also covers the Latin-1
superscript digits, which Python classifies as digits although int()
rejects them.  Characters outside this domain (other Unicode numerals)
are not modelled; theorems carry a domain hypothesis where it matters. -/
def pyIsDigit (c : Char) : Bool :=
  c.isDigit || c = '¹' || c = '²' || c = '³'

/-- The character domain on which pyIsDigit is a faithful model of the
Python str.isdigit predicate: ASCII plus the Latin-1 superscript digits. -/
def ModelledChar (c : Char) : Prop :=
  c.toNat < 128 ∨ c = '¹' ∨ c = '²' ∨ c = '³'

instance : DecidablePred ModelledChar := fun c => by
  unfold ModelledChar
  infer_instance

/-- Numeric value of a list of ASCII digit characters, most significant
first, as computed by the Python int constructor on the joined string. -/
def digitsVal (l : List Char) : ℤ :=
  l.foldl (fun acc c => 10 * acc + ((c.toNat : ℤ) - 48)) 0

/-- Python int("".join(...)) on a string of digit-class characters: fails
(ValueError, modelled as none) on the empty string and when any collected
character is not a decimal digit (for example a superscript digit). -/
def pyIntOfDigits (l : List Char) : Option ℤ :=
  if l = [] then none
  else if l.all Char.isDigit then some (digitsVal l) else none

/-- grade_base from src/utils/editor.py lines 122-127, applied to the
scorer reply text: collect every character for which str.isdigit is true,
parse the concatenation with int, clamp to [1,100]; none models the
ValueError raised when int fails. -/
def grade_base (content : String) : Option ℤ :=
  (pyIntOfDigits ((content.toList).filter pyIsDigit)).map
    (fun score => max 1 (min score 100))

/-- Rewrite intensity passed to humanize_article. -/
inductive RewriteMode where
  | gentle
  | aggressive
deriving DecidableEq, Repr

/-- Terminal states named by the specification for the three return
statements of refine_article. -/
inductive Outcome where
  | CONVERGED
  | STAGNATED
  | EXHAUSTED
deriving DecidableEq, Repr

/-- The local loop variables of refine_article (lines 257-267). -/
structure RState where
  test_article : String
  counter : ℕ
  prev_smoothed : Option ℤ
  best_score : ℤ
  best_article : String
  best_iter : ℕ
  no_gain_streak : ℤ
  prev_base : Option ℤ
deriving DecidableEq, Repr

/-- Result of one refinement run: the returned string, which return
statement produced it, and the loop variables at the return point. -/
structure RunResult where
  text : String
  outcome : Outcome
  final : RState
deriving DecidableEq, Repr

/-- One execution of the while-loop body of refine_article (lines
269-312), entered with counter < limit.  Returns the run result when a
return statement fires inside the body, otherwise the updated state. -/
def refineBody (limit threshold require_base_improvement no_gain_patience : ℤ)
    (scorer : ℕ → ℤ) (rewriter : String → ℤ → RewriteMode → String)
    (s : RState) : RunResult ⊕ RState :=
  let counter := s.counter + 1
  let base := scorer counter
  let my_grade := smooth_score s.prev_smoothed base 0.6 1 12
  let best :=
    if my_grade < s.best_score then (my_grade, s.test_article, counter)
    else (s.best_score, s.best_article, s.best_iter)
  let s1 : RState :=
    { s with counter := counter, prev_smoothed := some my_grade,
             best_score := best.1, best_article := best.2.1,
             best_iter := best.2.2 }
  if my_grade ≤ threshold then
    Sum.inl ⟨s1.test_article, Outcome.CONVERGED, s1⟩
  else
    let streak :=
      match s.prev_base with
      | some pb =>
        if pb - base < require_base_improvement then s.no_gain_streak + 1
        else 0
      | none => 0
    let s2 : RState := { s1 with no_gain_streak := streak, prev_base := some base }
    if streak = no_gain_patience - 1 ∧ (counter : ℤ) < limit then
      Sum.inr { s2 with
        test_article := rewriter s2.test_article base RewriteMode.aggressive }
    else if no_gain_patience ≤ streak then
      Sum.inl ⟨s2.best_article, Outcome.STAGNATED, s2⟩
    else
      Sum.inr { s2 with
        test_article := rewriter s2.test_article base RewriteMode.gentle }

/-- The while loop of refine_article, driven by fuel; the caller passes
fuel = limit.toNat, and counter + fuel = limit.toNat is maintained, so
fuel = 0 is exactly the exit condition counter < limit failing, at which
point the function returns best_article (lines 314-316). -/
def refineLoop (limit threshold require_base_improvement no_gain_patience : ℤ)
    (scorer : ℕ → ℤ) (rewriter : String → ℤ → RewriteMode → String) :
    ℕ → RState → RunResult
  | 0, s => ⟨s.best_article, Outcome.EXHAUSTED, s⟩
  | fuel + 1, s =>
    match refineBody limit threshold require_base_improvement no_gain_patience
        scorer rewriter s with
    | Sum.inl r => r
    | Sum.inr s' =>
      refineLoop limit threshold require_base_improvement no_gain_patience
        scorer rewriter fuel s'

/-- The loop variables as initialised at lines 257-267, for initial
(already preprocessed) text t0. -/
def initState (t0 : String) : RState :=
  ⟨t0, 0, none, 101, t0, 0, 0, none⟩

/-- refine_article (lines 236-316) over the two oracle collaborators,
starting from the preprocessed text t0. -/
def refine_article (scorer : ℕ → ℤ)
    (rewriter : String → ℤ → RewriteMode → String) (t0 : String)
    (limit threshold require_base_improvement no_gain_patience : ℤ) :
    RunResult :=
  refineLoop limit threshold require_base_improvement no_gain_patience
    scorer rewriter limit.toNat (initState t0)

/-- The chain of smoothed scores determined by the scorer sequence alone:
smoothedChain n is the value of prev_smoothed after n completed rounds. -/
def smoothedChain (scorer : ℕ → ℤ) : ℕ → Option ℤ
  | 0 => none
  | k + 1 => some (smooth_score (smoothedChain scorer k) (scorer (k + 1)) 0.6 1 12)

/-- The smoothed score computed in round k (meaningful for k ≥ 1). -/
def sAt (scorer : ℕ → ℤ) (k : ℕ) : ℤ :=
  (smoothedChain scorer k).getD 0

/-- The loop state after n rounds each of which continued the loop: none
once the run has stopped (or would stop) within the first n rounds. -/
def runState (limit threshold require_base_improvement no_gain_patience : ℤ)
    (scorer : ℕ → ℤ) (rewriter : String → ℤ → RewriteMode → String)
    (t0 : String) : ℕ → Option RState
  | 0 => some (initState t0)
  | n + 1 =>
    match runState limit threshold require_base_improvement no_gain_patience
        scorer rewriter t0 n with
    | none => none
    | some s =>
      if (s.counter : ℤ) < limit then
        match refineBody limit threshold require_base_improvement
            no_gain_patience scorer rewriter s with
        | Sum.inl _ => none
        | Sum.inr s' => some s'
      else none

/-- Best-so-far bookkeeping invariant of the loop state after n completed
rounds: the best smoothed score is a lower bound of the current smoothed
score and of every smoothed score observed so far, and the best article
and best iteration either are still the initial values (sentinel 101) or
record exactly the text scored in round best_iter together with the
smoothed score of that round. -/
def GoodBest (limit threshold require_base_improvement no_gain_patience : ℤ)
    (scorer : ℕ → ℤ) (rewriter : String → ℤ → RewriteMode → String)
    (t0 : String) (n : ℕ) (s : RState) : Prop :=
  (∀ g, s.prev_smoothed = some g → s.best_score ≤ g) ∧
  (∀ k, 1 ≤ k → k ≤ n → s.best_score ≤ sAt scorer k) ∧
  ((s.best_iter = 0 ∧ s.best_article = t0 ∧ s.best_score = 101) ∨
    (1 ≤ s.best_iter ∧ s.best_iter ≤ n ∧
      s.best_score = sAt scorer s.best_iter ∧
      ∃ sj, runState limit threshold require_base_improvement no_gain_patience
          scorer rewriter t0 (s.best_iter - 1) = some sj ∧
        s.best_article = sj.test_article))

/-! ## Properties of the rounding helper -/

/-- pyRound is within one half of its argument (upper bound). -/
lemma pyRound_le (q : ℚ) : (pyRound q : ℚ) ≤ q + 1/2 := by
  unfold pyRound
  have hf1 := Int.floor_le q
  have hf2 := Int.lt_floor_add_one q
  split_ifs with h1 h2 h3 <;> push_cast at * <;> linarith

/-- pyRound is within one half of its argument (lower bound). -/
lemma le_pyRound (q : ℚ) : q - 1/2 ≤ (pyRound q : ℚ) := by
  unfold pyRound
  have hf1 := Int.floor_le q
  have hf2 := Int.lt_floor_add_one q
  split_ifs with h1 h2 h3 <;> push_cast at * <;> linarith

/-- The final clamp of smooth_score always lands in [1,100]. -/
lemma clamp_bounds (x : ℤ) : 1 ≤ max 1 (min 100 x) ∧ max 1 (min 100 x) ≤ 100 := by
  omega

/-! ## Properties of the smoothing filter -/

/-- With the momentum 0.6 used by the loop, the quantity rounded by
smooth_score equals two fifths of base - previous. -/
lemma smooth_target_eq (prev base : ℤ) :
    (prev : ℚ) * 0.6 + (base : ℚ) * (1 - 0.6) - (prev : ℚ)
      = (2 * (base - prev) : ℤ) / 5 := by
  push_cast
  ring

/-- Integer bounds for the rounded step used by smooth_score at
momentum 0.6: ten times the step is within five of four times delta. -/
lemma pyRound_step_bounds (d : ℤ) :
    4 * d - 5 ≤ 10 * pyRound ((2 * d : ℤ) / 5) ∧
      10 * pyRound ((2 * d : ℤ) / 5) ≤ 4 * d + 5 := by
  have h1 := pyRound_le ((2 * d : ℤ) / 5)
  have h2 := le_pyRound ((2 * d : ℤ) / 5)
  constructor
  · have : (4 * d - 5 : ℚ) ≤ 10 * (pyRound ((2 * d : ℤ) / 5) : ℚ) := by
      push_cast at h2 ⊢
      linarith
    exact_mod_cast this
  · have : (10 * (pyRound ((2 * d : ℤ) / 5) : ℚ) : ℚ) ≤ 4 * d + 5 := by
      push_cast at h1 ⊢
      linarith
    exact_mod_cast this

/-- When both previous and base lie in [1,100], the smoothed value at the
tuning used by the loop stays between them (so in particular in [1,100]):
the deadband branch returns previous, and otherwise the rounded capped
step moves from previous toward base without overshooting. -/
lemma smooth_score_between (prev base : ℤ)
    (hp1 : 1 ≤ prev) (hp2 : prev ≤ 100) (hb1 : 1 ≤ base) (hb2 : base ≤ 100) :
    min prev base ≤ smooth_score (some prev) base 0.6 1 12 ∧
      smooth_score (some prev) base 0.6 1 12 ≤ max prev base := by
  unfold smooth_score
  simp only
  by_cases hdead : |base - prev| ≤ 1
  · rw [if_pos hdead]
    exact ⟨min_le_left _ _, le_max_left _ _⟩
  · rw [if_neg hdead, smooth_target_eq prev base]
    have hb := pyRound_step_bounds (base - prev)
    have habs : 2 ≤ base - prev ∨ base - prev ≤ -2 := by
      rcases le_or_lt prev base with h | h
      · left
        rcases lt_or_le 1 (base - prev) with h' | h'
        · omega
        · exact absurd (by rw [abs_of_nonneg (by omega)]; omega) hdead
      · right
        rcases lt_or_le (base - prev) (-1) with h' | h'
        · omega
        · exact absurd (by rw [abs_of_nonpos (by omega)]; omega) hdead
    set step0 := pyRound ((2 * (base - prev) : ℤ) / 5) with hstep0
    rcases habs with hd | hd
    · have hpos : 1 ≤ step0 := by omega
      have hle : step0 ≤ base - prev := by omega
      rw [if_pos (by omega : (0:ℤ) < step0)]
      omega
    · have hneg : step0 ≤ -1 := by omega
      have hge : base - prev ≤ step0 := by omega
      rw [if_neg (by omega : ¬ (0:ℤ) < step0), if_pos (by omega : step0 < 0)]
      omega

/-- C5 counterexample input check: previous = 150 (outside [1,100]),
base = 1 at the default tuning moves by 50, far more than max_step. -/
lemma smooth_150_1 : smooth_score (some 150) 1 0.6 1 12 = 100 := by
  norm_num [smooth_score, pyRound]

/-- C5: as stated the boundedness claim is false: the final clamp to
[1,100] can move the result away from an out-of-range previous by more
than max_step.  Concretely smooth(150, 1) = 100 and |100 - 150| > 12. -/
theorem smooth_boundedness_counterexample :
    ¬ |smooth_score (some 150) 1 0.6 1 12 - 150| ≤ 12 := by
  rw [smooth_150_1]
  decide

/-- C5 (amended): smoothing boundedness holds for every previous inside
[1,100] (the invariant range of smoothed scores): for all base, momentum,
deadband and max_step > 0, |smooth(previous, base, ...) - previous| is at
most max_step. -/
theorem smooth_boundedness (prev base : ℤ) (momentum : ℚ)
    (deadband max_step : ℤ) (hp1 : 1 ≤ prev) (hp2 : prev ≤ 100)
    (hms : 0 < max_step) :
    |smooth_score (some prev) base momentum deadband max_step - prev|
      ≤ max_step := by
  unfold smooth_score
  simp only
  by_cases hdead : |base - prev| ≤ deadband
  · rw [if_pos hdead]
    simp only [sub_self, abs_zero]
    omega
  · rw [if_neg hdead]
    set step0 := pyRound ((prev : ℚ) * momentum + (base : ℚ) * (1 - momentum)
      - (prev : ℚ)) with hstep0
    rw [abs_le]
    rcases lt_trichotomy step0 0 with h | h | h
    · rw [if_neg (by omega), if_pos h]
      constructor <;> omega
    · rw [if_neg (by omega), if_neg (by omega)]
      constructor <;> omega
    · rw [if_pos h]
      constructor <;> omega

/-- C5 witness. -/
theorem smooth_boundedness_witness :
    (1 : ℤ) ≤ 50 ∧ (50 : ℤ) ≤ 100 ∧ (0 : ℤ) < 12 ∧
      |smooth_score (some 50) 18 0.6 1 12 - 50| ≤ 12 :=
  ⟨by decide, by decide, by decide,
    smooth_boundedness 50 18 0.6 1 12 (by decide) (by decide) (by decide)⟩

/-- C8: deadband idempotence: whenever previous is defined and
|base - previous| ≤ deadband, smooth_score returns previous unchanged,
for every momentum and max_step. -/
theorem smooth_deadband_idempotent (prev base : ℤ) (momentum : ℚ)
    (deadband max_step : ℤ) (h : |base - prev| ≤ deadband) :
    smooth_score (some prev) base momentum deadband max_step = prev := by
  unfold smooth_score
  simp only
  rw [if_pos h]

/-- C8 witness. -/
theorem smooth_deadband_idempotent_witness :
    |(51 : ℤ) - 50| ≤ 1 ∧ smooth_score (some 50) 51 0.6 1 12 = 50 :=
  ⟨by decide, smooth_deadband_idempotent 50 51 0.6 1 12 (by decide)⟩

/-- C9 counterexample: the claim that the result always lies in [1,100]
when previous is defined is false: the deadband branch returns previous
unclamped, so smooth(150, 150) = 150, outside [1,100]. -/
theorem smooth_clamp_counterexample :
    ¬ smooth_score (some 150) 150 0.6 1 12 ≤ 100 := by
  have h : smooth_score (some 150) 150 0.6 1 12 = 150 := by
    norm_num [smooth_score]
  rw [h]
  decide

/-- C9 (amended): with previous absent the raw base is returned exactly
(unclamped); with previous defined the result is clamped into [1,100]
exactly when the deadband branch is not taken, that is when
|base - previous| > deadband; the deadband branch returns previous even
when previous is outside [1,100]. -/
theorem smooth_clamp_amended (prev base : ℤ) (momentum : ℚ)
    (deadband max_step : ℤ) :
    smooth_score none base momentum deadband max_step = base ∧
      (deadband < |base - prev| →
        1 ≤ smooth_score (some prev) base momentum deadband max_step ∧
          smooth_score (some prev) base momentum deadband max_step ≤ 100) := by
  refine ⟨rfl, fun h => ?_⟩
  unfold smooth_score
  simp only
  rw [if_neg (not_le.mpr h)]
  exact clamp_bounds _

/-- C9 witness. -/
theorem smooth_clamp_amended_witness :
    smooth_score none 150 0.6 1 12 = 150 ∧
      1 ≤ smooth_score (some 50) 150 0.6 1 12 ∧
      smooth_score (some 50) 150 0.6 1 12 ≤ 100 :=
  ⟨(smooth_clamp_amended 50 150 0.6 1 12).1,
    (smooth_clamp_amended 50 150 0.6 1 12).2 (by decide)⟩

/-! ## Properties of the grader reply parsing -/

/-- C10 counterexample: the reply 8² contains the digit character 8, yet
grade_base raises ValueError (returns none): the collected digit-class
characters include the superscript ², which Python str.isdigit accepts
but int() rejects, so the claimed exact characterization of the error
case is false. -/
theorem grade_base_counterexample :
    ('8' ∈ "8²".toList ∧ '8'.isDigit = true) ∧ grade_base "8²" = none := by
  decide

/-- C10 (amended): over the modelled character domain, grade_base raises
ValueError (none) exactly when the reply has no digit-class character at
all, or some collected digit-class character is not a decimal digit
(such as a superscript); and every successful result is the
concatenation of all digit characters of the reply, clamped to [1,100]. -/
theorem grade_base_spec (content : String)
    (hdom : ∀ c ∈ content.toList, ModelledChar c) :
    (grade_base content = none ↔
      ((∀ c ∈ content.toList, ¬ pyIsDigit c) ∨
        ∃ c ∈ content.toList, pyIsDigit c ∧ ¬ c.isDigit)) ∧
    (∀ n, grade_base content = some n →
      n = max 1 (min (digitsVal (content.toList.filter pyIsDigit)) 100) ∧
        1 ≤ n ∧ n ≤ 100) := by
  clear hdom
  unfold grade_base pyIntOfDigits
  by_cases h1 : content.toList.filter pyIsDigit = []
  · rw [if_pos h1]
    refine ⟨?_, by simp⟩
    simp only [Option.map_none', true_iff]
    left
    intro c hc
    exact (List.filter_eq_nil_iff.mp h1) c hc
  · rw [if_neg h1]
    by_cases h2 : (content.toList.filter pyIsDigit).all Char.isDigit
    · rw [if_pos h2]
      constructor
      · simp only [Option.map_some']
        refine iff_of_false (by simp) ?_
        rintro (hall | ⟨c, hc, hd, hnd⟩)
        · exact h1 (List.filter_eq_nil_iff.mpr hall)
        · exact hnd (List.all_eq_true.mp h2 c (List.mem_filter.mpr ⟨hc, hd⟩))
      · intro n hn
        simp only [Option.map_some', Option.some.injEq] at hn
        refine ⟨hn.symm, ?_, ?_⟩ <;> omega
    · rw [if_neg h2]
      refine ⟨?_, by simp⟩
      simp only [Option.map_none', true_iff]
      right
      rw [List.all_eq_true] at h2
      push_neg at h2
      obtain ⟨c, hc, hd⟩ := h2
      exact ⟨c, (List.mem_filter.mp hc).1, (List.mem_filter.mp hc).2,
        by simp_all⟩

/-- C10 witness: the reply 8/10 parses to the digit concatenation 810,
clamped to 100. -/
theorem grade_base_spec_witness :
    grade_base "8/10" = some 100 ∧
      (100 : ℤ) = max 1 (min (digitsVal (("8/10").toList.filter pyIsDigit)) 100) ∧
      (1 : ℤ) ≤ 100 ∧ (100 : ℤ) ≤ 100 :=
  ⟨by decide, (grade_base_spec "8/10" (by decide)).2 100 (by decide)⟩

/-! ## Driver loop lemmas -/

section Driver

variable (limit threshold rbi patience : ℤ) (scorer : ℕ → ℤ)
variable (rewriter : String → ℤ → RewriteMode → String) (t0 : String)

lemma sAt_succ (n : ℕ) :
    sAt scorer (n + 1) =
      smooth_score (smoothedChain scorer n) (scorer (n + 1)) 0.6 1 12 := by
  simp [sAt, smoothedChain]

lemma refineLoop_succ (fuel : ℕ) (s s' : RState)
    (h : refineBody limit threshold rbi patience scorer rewriter s = Sum.inr s') :
    refineLoop limit threshold rbi patience scorer rewriter (fuel + 1) s =
      refineLoop limit threshold rbi patience scorer rewriter fuel s' := by
  simp [refineLoop, h]

lemma refineLoop_stop (fuel : ℕ) (s : RState) (r : RunResult)
    (h : refineBody limit threshold rbi patience scorer rewriter s = Sum.inl r) :
    refineLoop limit threshold rbi patience scorer rewriter (fuel + 1) s = r := by
  simp [refineLoop, h]

/-- Field characterization of a loop-body execution that continues. -/
lemma refineBody_inr (s s' : RState)
    (h : refineBody limit threshold rbi patience scorer rewriter s = Sum.inr s') :
    s'.counter = s.counter + 1 ∧
    s'.prev_smoothed =
      some (smooth_score s.prev_smoothed (scorer (s.counter + 1)) 0.6 1 12) ∧
    ¬ smooth_score s.prev_smoothed (scorer (s.counter + 1)) 0.6 1 12 ≤ threshold ∧
    (s'.best_score =
      if smooth_score s.prev_smoothed (scorer (s.counter + 1)) 0.6 1 12 < s.best_score
      then smooth_score s.prev_smoothed (scorer (s.counter + 1)) 0.6 1 12
      else s.best_score) ∧
    (s'.best_article =
      if smooth_score s.prev_smoothed (scorer (s.counter + 1)) 0.6 1 12 < s.best_score
      then s.test_article else s.best_article) ∧
    (s'.best_iter =
      if smooth_score s.prev_smoothed (scorer (s.counter + 1)) 0.6 1 12 < s.best_score
      then s.counter + 1 else s.best_iter) := by
  simp only [refineBody] at h
  by_cases hth :
      smooth_score s.prev_smoothed (scorer (s.counter + 1)) 0.6 1 12 ≤ threshold
  · rw [if_pos hth] at h
    exact absurd h (by simp)
  · rw [if_neg hth] at h
    refine ⟨?_, ?_, hth, ?_, ?_, ?_⟩ <;>
      split_ifs at h ⊢ with h1 h2 <;>
        first
          | (cases h; rfl)
          | exact absurd h (by simp)
          | simp_all

/-- Field characterization of a loop-body execution that returns. -/
lemma refineBody_inl (s : RState) (r : RunResult)
    (h : refineBody limit threshold rbi patience scorer rewriter s = Sum.inl r) :
    r.final.counter = s.counter + 1 ∧
    r.final.prev_smoothed =
      some (smooth_score s.prev_smoothed (scorer (s.counter + 1)) 0.6 1 12) ∧
    (r.final.best_score =
      if smooth_score s.prev_smoothed (scorer (s.counter + 1)) 0.6 1 12 < s.best_score
      then smooth_score s.prev_smoothed (scorer (s.counter + 1)) 0.6 1 12
      else s.best_score) ∧
    (r.final.best_article =
      if smooth_score s.prev_smoothed (scorer (s.counter + 1)) 0.6 1 12 < s.best_score
      then s.test_article else s.best_article) ∧
    (r.final.best_iter =
      if smooth_score s.prev_smoothed (scorer (s.counter + 1)) 0.6 1 12 < s.best_score
      then s.counter + 1 else s.best_iter) ∧
    ((r.outcome = Outcome.CONVERGED ∧
        smooth_score s.prev_smoothed (scorer (s.counter + 1)) 0.6 1 12 ≤ threshold ∧
        r.text = s.test_article) ∨
      (r.outcome = Outcome.STAGNATED ∧
        ¬ smooth_score s.prev_smoothed (scorer (s.counter + 1)) 0.6 1 12 ≤ threshold ∧
        r.text = r.final.best_article)) := by
  simp only [refineBody] at h
  by_cases hth :
      smooth_score s.prev_smoothed (scorer (s.counter + 1)) 0.6 1 12 ≤ threshold
  · rw [if_pos hth] at h
    refine ⟨?_, ?_, ?_, ?_, ?_, Or.inl ⟨?_, hth, ?_⟩⟩ <;>
      first
        | (cases h; rfl)
        | (split_ifs at h ⊢ with h1 <;> (cases h; rfl))
  · rw [if_neg hth] at h
    refine ⟨?_, ?_, ?_, ?_, ?_, Or.inr ⟨?_, hth, ?_⟩⟩ <;>
      split_ifs at h ⊢ with h1 h2 <;>
        first
          | (cases h; rfl)
          | exact absurd h (by simp)
          | simp_all

/-- Decomposition of a defined state after n + 1 rounds. -/
lemma runState_succ_elim (n : ℕ) (s' : RState)
    (h : runState limit threshold rbi patience scorer rewriter t0 (n + 1) = some s') :
    ∃ s, runState limit threshold rbi patience scorer rewriter t0 n = some s ∧
      (s.counter : ℤ) < limit ∧
      refineBody limit threshold rbi patience scorer rewriter s = Sum.inr s' := by
  rw [runState] at h
  split at h
  · exact absurd h (by simp)
  · rename_i s hn
    split at h
    · rename_i hlt
      split at h
      · exact absurd h (by simp)
      · rename_i s'' hb
        simp only [Option.some.injEq] at h
        subst h
        exact ⟨s, hn, hlt, hb⟩
    · exact absurd h (by simp)

/-- Master invariant of reachable loop states: the round counter equals
the number of completed rounds, prev_smoothed follows the smoothed
chain, no completed round crossed the threshold, and the best-so-far
bookkeeping is correct. -/
lemma runState_invariant (n : ℕ) (s : RState)
    (h : runState limit threshold rbi patience scorer rewriter t0 n = some s) :
    s.counter = n ∧
    s.prev_smoothed = smoothedChain scorer n ∧
    (∀ k, 1 ≤ k → k ≤ n → ¬ sAt scorer k ≤ threshold) ∧
    GoodBest limit threshold rbi patience scorer rewriter t0 n s := by
  induction n generalizing s with
  | zero =>
    rw [runState] at h
    simp only [Option.some.injEq] at h
    subst h
    refine ⟨rfl, rfl, by omega, ?_, by omega, Or.inl ⟨rfl, rfl, rfl⟩⟩
    intro g hg
    exact absurd hg (by simp [initState])
  | succ n ih =>
    obtain ⟨sp, hsp, hlt, hb⟩ :=
      runState_succ_elim limit threshold rbi patience scorer rewriter t0 n s h
    obtain ⟨hc, hp, hnc, hgb⟩ := ih sp hsp
    obtain ⟨hc', hp', hth', hbs, hba, hbi⟩ :=
      refineBody_inr limit threshold rbi patience scorer rewriter sp s hb
    have hmg : smooth_score sp.prev_smoothed (scorer (sp.counter + 1)) 0.6 1 12 =
        sAt scorer (n + 1) := by
      rw [hc, hp, sAt_succ]
    rw [hmg] at hp' hth' hbs hba hbi
    have hcount : s.counter = n + 1 := by omega
    refine ⟨hcount, by rw [hp', sAt_succ]; simp [sAt, smoothedChain], ?_, ?_, ?_, ?_⟩
    · intro k hk1 hk2
      rcases Nat.lt_or_ge k (n + 1) with hk | hk
      · exact hnc k hk1 (by omega)
      · have : k = n + 1 := by omega
        rw [this]
        exact hth'
    · intro g hg
      rw [hp'] at hg
      simp only [Option.some.injEq] at hg
      subst hg
      rw [hbs]
      split_ifs with h1
      · exact le_refl _
      · omega
    · intro k hk1 hk2
      rw [hbs]
      split_ifs with h1
      · rcases Nat.lt_or_ge k (n + 1) with hk | hk
        · have := hgb.2.1 k hk1 (by omega)
          omega
        · have hkeq : k = n + 1 := by omega
          rw [hkeq]
      · rcases Nat.lt_or_ge k (n + 1) with hk | hk
        · exact hgb.2.1 k hk1 (by omega)
        · have hkeq : k = n + 1 := by omega
          rw [hkeq]
          omega
    · rw [hbs, hba, hbi]
      split_ifs with h1
      · refine Or.inr ⟨by omega, by omega, by rw [hc], ⟨sp, ?_, rfl⟩⟩
        have : sp.counter + 1 - 1 = n := by omega
        rw [this]
        exact hsp
      · rcases hgb.2.2 with hl | ⟨hi1, hi2, hi3, sj, hsj, harts⟩
        · exact Or.inl hl
        · exact Or.inr ⟨hi1, by omega, hi3, sj, hsj, harts⟩

/-- A defined state after n + 1 rounds presupposes a defined state after
n rounds. -/
lemma runState_some_of_succ (n : ℕ) (s' : RState)
    (h : runState limit threshold rbi patience scorer rewriter t0 (n + 1) = some s') :
    ∃ s, runState limit threshold rbi patience scorer rewriter t0 n = some s :=
  let ⟨s, hs, _, _⟩ :=
    runState_succ_elim limit threshold rbi patience scorer rewriter t0 n s' h
  ⟨s, hs⟩

/-- best_score never increases from one reachable state to a later one. -/
lemma runState_best_mono (m n : ℕ) (s s' : RState) (hmn : m ≤ n)
    (hm : runState limit threshold rbi patience scorer rewriter t0 m = some s)
    (hn : runState limit threshold rbi patience scorer rewriter t0 n = some s') :
    s'.best_score ≤ s.best_score := by
  induction n generalizing s' with
  | zero =>
    have hm0 : m = 0 := by omega
    rw [hm0] at hm
    rw [hm] at hn
    simp only [Option.some.injEq] at hn
    rw [hn]
  | succ n ih =>
    rcases Nat.lt_or_ge m (n + 1) with hlt | hge
    · obtain ⟨sp, hsp, _, hb⟩ :=
        runState_succ_elim limit threshold rbi patience scorer rewriter t0 n s' hn
      have h1 := ih sp (by omega) hsp
      obtain ⟨_, _, _, hbs, _, _⟩ :=
        refineBody_inr limit threshold rbi patience scorer rewriter sp s' hb
      rw [hbs]
      split_ifs with h2
      · omega
      · exact h1
    · have hmeq : m = n + 1 := by omega
      rw [hmeq] at hm
      rw [hm] at hn
      simp only [Option.some.injEq] at hn
      rw [hn]

/-- Every run of the loop either exhausts the fuel at a reachable state
(returning its best article) or ends with a terminal body execution from
a reachable state. -/
lemma refineLoop_reaches (fuel n : ℕ) (s : RState)
    (hrun : runState limit threshold rbi patience scorer rewriter t0 n = some s)
    (hfuel : fuel + n = limit.toNat) :
    ∃ m s', runState limit threshold rbi patience scorer rewriter t0 m = some s' ∧
      ((¬ ((s'.counter : ℤ) < limit) ∧
          refineLoop limit threshold rbi patience scorer rewriter fuel s =
            ⟨s'.best_article, Outcome.EXHAUSTED, s'⟩) ∨
        (((s'.counter : ℤ) < limit) ∧
          refineBody limit threshold rbi patience scorer rewriter s' =
            Sum.inl (refineLoop limit threshold rbi patience scorer rewriter fuel s))) := by
  induction fuel generalizing n s with
  | zero =>
    have hc :=
      (runState_invariant limit threshold rbi patience scorer rewriter t0 n s hrun).1
    refine ⟨n, s, hrun, Or.inl ⟨by omega, ?_⟩⟩
    rw [refineLoop]
  | succ fuel ih =>
    have hc :=
      (runState_invariant limit threshold rbi patience scorer rewriter t0 n s hrun).1
    have hlt : (s.counter : ℤ) < limit := by omega
    cases hb : refineBody limit threshold rbi patience scorer rewriter s with
    | inl r =>
      refine ⟨n, s, hrun, Or.inr ⟨hlt, ?_⟩⟩
      rw [refineLoop_stop limit threshold rbi patience scorer rewriter fuel s r hb]
      exact hb
    | inr s' =>
      have hstep : runState limit threshold rbi patience scorer rewriter t0 (n + 1) =
          some s' := by
        rw [runState, hrun]
        simp only [if_pos hlt, hb]
      rw [refineLoop_succ limit threshold rbi patience scorer rewriter fuel s s' hb]
      exact ih (n + 1) s' hstep (by omega)

/-- The loop advances the round counter at most fuel times. -/
lemma refineLoop_counter_le (fuel : ℕ) (s : RState) :
    (refineLoop limit threshold rbi patience scorer rewriter fuel s).final.counter
      ≤ s.counter + fuel := by
  induction fuel generalizing s with
  | zero =>
    rw [refineLoop]
    exact Nat.le_refl _
  | succ fuel ih =>
    cases hb : refineBody limit threshold rbi patience scorer rewriter s with
    | inl r =>
      rw [refineLoop_stop limit threshold rbi patience scorer rewriter fuel s r hb]
      have := (refineBody_inl limit threshold rbi patience scorer rewriter s r hb).1
      omega
    | inr s' =>
      rw [refineLoop_succ limit threshold rbi patience scorer rewriter fuel s s' hb]
      have := (refineBody_inr limit threshold rbi patience scorer rewriter s s' hb).1
      have := ih s'
      omega

/-- A loop body entered with a smoothed score at or below the threshold
returns immediately with the current text and outcome CONVERGED. -/
lemma refineBody_converged (s : RState)
    (h : smooth_score s.prev_smoothed (scorer (s.counter + 1)) 0.6 1 12 ≤ threshold) :
    ∃ fs, refineBody limit threshold rbi patience scorer rewriter s =
        Sum.inl ⟨s.test_article, Outcome.CONVERGED, fs⟩ ∧ fs.counter = s.counter + 1 := by
  cases hb : refineBody limit threshold rbi patience scorer rewriter s with
  | inl r =>
    obtain ⟨hc, _, _, _, _, hout⟩ :=
      refineBody_inl limit threshold rbi patience scorer rewriter s r hb
    rcases hout with ⟨ho, _, ht⟩ | ⟨_, hth, _⟩
    · refine ⟨r.final, ?_, hc⟩
      rw [← ht, ← ho]
    · exact absurd h hth
  | inr s' =>
    obtain ⟨_, _, hth, _⟩ :=
      refineBody_inr limit threshold rbi patience scorer rewriter s s' hb
    exact absurd h hth

end Driver

/-- For k ≥ 1 the smoothed chain is defined and carries sAt. -/
lemma smoothedChain_eq_sAt (scorer : ℕ → ℤ) (k : ℕ) (hk : 1 ≤ k) :
    smoothedChain scorer k = some (sAt scorer k) := by
  cases k with
  | zero => omega
  | succ j => rw [smoothedChain, sAt_succ]

/-- When every scorer value is in [1,100], every smoothed score is too. -/
lemma sAt_range (scorer : ℕ → ℤ)
    (hrange : ∀ k, 1 ≤ scorer k ∧ scorer k ≤ 100) (k : ℕ) (hk : 1 ≤ k) :
    1 ≤ sAt scorer k ∧ sAt scorer k ≤ 100 := by
  induction k with
  | zero => omega
  | succ j ih =>
    rcases Nat.eq_zero_or_pos j with hj | hj
    · subst hj
      rw [sAt_succ]
      have : smoothedChain scorer 0 = none := rfl
      rw [this]
      exact hrange 1
    · rw [sAt_succ, smoothedChain_eq_sAt scorer j hj]
      have hb := smooth_score_between (sAt scorer j) (scorer (j + 1))
        (ih hj).1 (ih hj).2 (hrange (j + 1)).1 (hrange (j + 1)).2
      have h1 := (ih hj).1
      have h2 := (ih hj).2
      have h3 := hrange (j + 1)
      omega

/-! ## Claim theorems -/

/-- C7: in every run of refine_article, for every configuration, scorer
and rewriter, at most limit scoring calls are performed: the final round
counter (incremented exactly once per grade_base call) never exceeds
limit (and never exceeds limit.toNat, which also covers limit ≤ 0, where
no scoring happens at all). -/
theorem refine_article_scoring_calls_bounded (scorer : ℕ → ℤ)
    (rewriter : String → ℤ → RewriteMode → String) (t0 : String)
    (limit threshold rbi patience : ℤ) :
    (refine_article scorer rewriter t0 limit threshold rbi patience).final.counter
        ≤ limit.toNat ∧
      ((refine_article scorer rewriter t0 limit threshold rbi
          patience).final.counter : ℤ) ≤ max limit 0 := by
  have h := refineLoop_counter_le limit threshold rbi patience scorer rewriter
    limit.toNat (initState t0)
  have h0 : (initState t0).counter = 0 := rfl
  rw [refine_article]
  omega

/-- C3 counterexample: refine_article performs no configuration
validation.  With limit = 0 (invalid per the claim) the run does not
fail: it silently returns the input document with outcome EXHAUSTED, and
with threshold = 200 (outside [1,100]) the loop runs normally, performs
a scoring call and converges at round 1. -/
theorem config_validation_counterexample :
    (refine_article (fun _ => 80) (fun t _ _ => t) "a" 0 20 2 3).text = "a" ∧
    (refine_article (fun _ => 80) (fun t _ _ => t) "a" 0 20 2 3).outcome =
      Outcome.EXHAUSTED ∧
    (refine_article (fun _ => 80) (fun t _ _ => t) "a" 5 200 2 3).outcome =
      Outcome.CONVERGED ∧
    (refine_article (fun _ => 80) (fun t _ _ => t) "a" 5 200 2 3).final.counter
      = 1 := by
  refine ⟨rfl, rfl, ?_, ?_⟩ <;> decide

/-- C3 (amended): refine_article performs no validation of limit or
threshold: when limit ≤ 0 the while loop never starts, so no scoring or
rewriting is performed (final counter 0) and the preprocessed input text
is returned as the best-so-far (EXHAUSTED); out-of-range thresholds are
used as given. -/
theorem refine_article_no_validation (scorer : ℕ → ℤ)
    (rewriter : String → ℤ → RewriteMode → String) (t0 : String)
    (limit threshold rbi patience : ℤ) (hlim : limit ≤ 0) :
    refine_article scorer rewriter t0 limit threshold rbi patience =
        ⟨t0, Outcome.EXHAUSTED, initState t0⟩ ∧
      (refine_article scorer rewriter t0 limit threshold rbi
        patience).final.counter = 0 := by
  have h0 : limit.toNat = 0 := by omega
  rw [refine_article, h0, refineLoop]
  exact ⟨rfl, rfl⟩

/-- C3 witness. -/
theorem refine_article_no_validation_witness :
    (-3 : ℤ) ≤ 0 ∧
      (refine_article (fun _ => 80) (fun t _ _ => t) "a" (-3) 20 2 3 =
          ⟨"a", Outcome.EXHAUSTED, initState "a"⟩ ∧
        (refine_article (fun _ => 80) (fun t _ _ => t) "a" (-3) 20 2
          3).final.counter = 0) :=
  ⟨by decide,
    refine_article_no_validation (fun _ => 80) (fun t _ _ => t) "a" (-3) 20 2 3
      (by decide)⟩

/-- C1 (amended): convergence is decided on the smoothed score, not on
the raw score: whenever a round is entered (fuel remaining) and the
smoothed score of that round is at or below threshold, the loop stops in
that very round with outcome CONVERGED, returning the text of that round
unchanged.  A raw score at or below threshold does not guarantee this
(see the counterexample below, where smoothing caps the drop). -/
theorem converged_when_smoothed_crosses (limit threshold rbi patience : ℤ)
    (scorer : ℕ → ℤ) (rewriter : String → ℤ → RewriteMode → String)
    (fuel : ℕ) (s : RState)
    (h : smooth_score s.prev_smoothed (scorer (s.counter + 1)) 0.6 1 12 ≤ threshold) :
    (refineLoop limit threshold rbi patience scorer rewriter (fuel + 1) s).outcome
        = Outcome.CONVERGED ∧
      (refineLoop limit threshold rbi patience scorer rewriter (fuel + 1) s).text
        = s.test_article ∧
      (refineLoop limit threshold rbi patience scorer rewriter
        (fuel + 1) s).final.counter = s.counter + 1 := by
  obtain ⟨fs, hb, hc⟩ :=
    refineBody_converged limit threshold rbi patience scorer rewriter s h
  rw [refineLoop_stop limit threshold rbi patience scorer rewriter fuel s _ hb]
  exact ⟨rfl, rfl, hc⟩

/-- C1 witness: a first-round raw score of 10 under threshold 20
converges immediately. -/
theorem converged_when_smoothed_crosses_witness :
    smooth_score (initState "a").prev_smoothed
        ((fun _ => (10 : ℤ)) ((initState "a").counter + 1)) 0.6 1 12 ≤ 20 ∧
      ((refineLoop 5 20 2 3 (fun _ => (10 : ℤ)) (fun t _ _ => t) (4 + 1)
            (initState "a")).outcome = Outcome.CONVERGED ∧
        (refineLoop 5 20 2 3 (fun _ => (10 : ℤ)) (fun t _ _ => t) (4 + 1)
            (initState "a")).text = (initState "a").test_article ∧
        (refineLoop 5 20 2 3 (fun _ => (10 : ℤ)) (fun t _ _ => t) (4 + 1)
            (initState "a")).final.counter = (initState "a").counter + 1) :=
  ⟨by decide,
    converged_when_smoothed_crosses 5 20 2 3 (fun _ => (10 : ℤ))
      (fun t _ _ => t) 4 (initState "a") (by decide)⟩

/-- C2: for every run (scorer values in [1,100], as grade_base
guarantees), the returned document is the best-so-far document: its text
equals the final best_article, the final best smoothed score is a lower
bound of every smoothed score observed in the run, once at least one
scoring round completed the returned document is exactly the document
scored in round best_iter (so a document is always returned), and on
CONVERGED the smoothed score of the final round crossed the threshold
and equals the best score (the accepted text is never worse, by smoothed
score, than any document observed). -/
theorem refine_article_returns_best (scorer : ℕ → ℤ)
    (rewriter : String → ℤ → RewriteMode → String) (t0 : String)
    (limit threshold rbi patience : ℤ)
    (hrange : ∀ k, 1 ≤ scorer k ∧ scorer k ≤ 100)
    (r : RunResult)
    (hr : r = refine_article scorer rewriter t0 limit threshold rbi patience) :
    r.text = r.final.best_article ∧
    (∀ k, 1 ≤ k → k ≤ r.final.counter → r.final.best_score ≤ sAt scorer k) ∧
    (1 ≤ r.final.counter →
      1 ≤ r.final.best_iter ∧ r.final.best_iter ≤ r.final.counter ∧
        r.final.best_score = sAt scorer r.final.best_iter ∧
        ∃ sj, runState limit threshold rbi patience scorer rewriter t0
            (r.final.best_iter - 1) = some sj ∧
          r.final.best_article = sj.test_article) ∧
    (r.outcome = Outcome.CONVERGED →
      sAt scorer r.final.counter ≤ threshold ∧
        r.final.best_score = sAt scorer r.final.counter) := by
  subst hr
  have hrun0 : runState limit threshold rbi patience scorer rewriter t0 0 =
      some (initState t0) := by rw [runState]
  obtain ⟨m, s', hm, hcase⟩ := refineLoop_reaches limit threshold rbi patience
    scorer rewriter t0 limit.toNat 0 (initState t0) hrun0 (by omega)
  obtain ⟨hc, hp, hnc, hgb⟩ :=
    runState_invariant limit threshold rbi patience scorer rewriter t0 m s' hm
  rcases hcase with ⟨hnl, heq⟩ | ⟨hlt, hb⟩
  · rw [refine_article, heq]
    dsimp only
    refine ⟨rfl, ?_, ?_, ?_⟩
    · intro k h1 h2
      exact hgb.2.1 k h1 (by omega)
    · intro h1
      rcases hgb.2.2 with ⟨hi0, hart, hsc⟩ | ⟨hj1, hj2, hj3, sj, hsj, hart⟩
      · exfalso
        have hb1 := hgb.2.1 1 (le_refl 1) (by omega)
        have h100 := (sAt_range scorer hrange 1 (le_refl 1)).2
        omega
      · exact ⟨hj1, by omega, hj3, sj, hsj, hart⟩
    · intro habs
      exact absurd habs (by decide)
  · obtain ⟨hc', hp', hbs, hba, hbi, hout⟩ :=
      refineBody_inl limit threshold rbi patience scorer rewriter s' _ hb
    have hmg : smooth_score s'.prev_smoothed (scorer (s'.counter + 1)) 0.6 1 12 =
        sAt scorer (m + 1) := by
      rw [hc, hp, sAt_succ]
    rw [hmg] at hbs hba hbi hout
    rw [refine_article]
    rcases hout with ⟨ho, hth, ht⟩ | ⟨ho, hth, ht⟩
    · have hupd : sAt scorer (m + 1) < s'.best_score := by
        by_contra hno
        push_neg at hno
        rcases hgb.2.2 with ⟨_, _, hsc⟩ | ⟨hj1, hj2, hj3, _⟩
        · have h100 := (sAt_range scorer hrange (m + 1) (by omega)).2
          omega
        · have hthj := hnc s'.best_iter hj1 hj2
          rw [← hj3] at hthj
          omega
      rw [if_pos hupd] at hbs hba hbi
      refine ⟨?_, ?_, ?_, ?_⟩
      · rw [ht, hba]
      · intro k h1 h2
        rw [hbs]
        rcases Nat.lt_or_ge k (m + 1) with hk | hk
        · have := hgb.2.1 k h1 (by omega)
          omega
        · have hkeq : k = m + 1 := by omega
          rw [hkeq]
      · intro h1
        rw [hbs, hba, hbi, hc', hc]
        refine ⟨by omega, by omega, rfl, ⟨s', ?_, rfl⟩⟩
        have he : m + 1 - 1 = m := by omega
        rw [he]
        exact hm
      · intro h1
        rw [hbs, hc', hc]
        exact ⟨hth, rfl⟩
    · refine ⟨ht, ?_, ?_, ?_⟩
      · intro k h1 h2
        rw [hbs]
        split_ifs with h3
        · rcases Nat.lt_or_ge k (m + 1) with hk | hk
          · have := hgb.2.1 k h1 (by omega)
            omega
          · have hkeq : k = m + 1 := by omega
            rw [hkeq]
        · rcases Nat.lt_or_ge k (m + 1) with hk | hk
          · exact hgb.2.1 k h1 (by omega)
          · have hkeq : k = m + 1 := by omega
            rw [hkeq]
            omega
      · intro h1
        rw [hbs, hba, hbi, hc', hc]
        split_ifs with h3
        · refine ⟨by omega, by omega, rfl, ⟨s', ?_, rfl⟩⟩
          have he : m + 1 - 1 = m := by omega
          rw [he]
          exact hm
        · rcases hgb.2.2 with ⟨_, _, hsc⟩ | ⟨hj1, hj2, hj3, sj, hsj, hart⟩
          · exfalso
            have h100 := (sAt_range scorer hrange (m + 1) (by omega)).2
            omega
          · exact ⟨hj1, by omega, hj3, sj, hsj, hart⟩
      · intro habs
        rw [ho] at habs
        exact absurd habs (by decide)

/-- C2 witness: a run that converges in round 1. -/
theorem refine_article_returns_best_witness :
    (∀ k : ℕ, 1 ≤ (fun _ => (10 : ℤ)) k ∧ (fun _ => (10 : ℤ)) k ≤ 100) ∧
      ((refine_article (fun _ => (10 : ℤ)) (fun t _ _ => t) "a" 5 20 2 3).text =
          (refine_article (fun _ => (10 : ℤ)) (fun t _ _ => t) "a" 5 20 2
            3).final.best_article ∧
        (∀ k, 1 ≤ k →
          k ≤ (refine_article (fun _ => (10 : ℤ)) (fun t _ _ => t) "a" 5 20 2
            3).final.counter →
          (refine_article (fun _ => (10 : ℤ)) (fun t _ _ => t) "a" 5 20 2
              3).final.best_score ≤ sAt (fun _ => (10 : ℤ)) k) ∧
        (1 ≤ (refine_article (fun _ => (10 : ℤ)) (fun t _ _ => t) "a" 5 20 2
            3).final.counter →
          1 ≤ (refine_article (fun _ => (10 : ℤ)) (fun t _ _ => t) "a" 5 20 2
              3).final.best_iter ∧
            (refine_article (fun _ => (10 : ℤ)) (fun t _ _ => t) "a" 5 20 2
                3).final.best_iter ≤
              (refine_article (fun _ => (10 : ℤ)) (fun t _ _ => t) "a" 5 20 2
                3).final.counter ∧
            (refine_article (fun _ => (10 : ℤ)) (fun t _ _ => t) "a" 5 20 2
                3).final.best_score =
              sAt (fun _ => (10 : ℤ))
                (refine_article (fun _ => (10 : ℤ)) (fun t _ _ => t) "a" 5 20 2
                  3).final.best_iter ∧
            ∃ sj, runState 5 20 2 3 (fun _ => (10 : ℤ)) (fun t _ _ => t) "a"
                ((refine_article (fun _ => (10 : ℤ)) (fun t _ _ => t) "a" 5 20 2
                  3).final.best_iter - 1) = some sj ∧
              (refine_article (fun _ => (10 : ℤ)) (fun t _ _ => t) "a" 5 20 2
                  3).final.best_article = sj.test_article) ∧
        ((refine_article (fun _ => (10 : ℤ)) (fun t _ _ => t) "a" 5 20 2
            3).outcome = Outcome.CONVERGED →
          sAt (fun _ => (10 : ℤ))
              (refine_article (fun _ => (10 : ℤ)) (fun t _ _ => t) "a" 5 20 2
                3).final.counter ≤ 20 ∧
            (refine_article (fun _ => (10 : ℤ)) (fun t _ _ => t) "a" 5 20 2
                3).final.best_score =
              sAt (fun _ => (10 : ℤ))
                (refine_article (fun _ => (10 : ℤ)) (fun t _ _ => t) "a" 5 20 2
                  3).final.counter)) :=
  ⟨fun k => ⟨by simp, by simp⟩,
    refine_article_returns_best (fun _ => (10 : ℤ)) (fun t _ _ => t) "a" 5 20 2 3
      (fun k => ⟨by simp, by simp⟩) _ rfl⟩

/-- C6: across any two reachable states of one run, bestSmoothedScore is
monotonically non-increasing; after every update it is a lower bound of
the current smoothed score; and best_article is exactly the document
snapshot scored in round best_iter (the round recorded when the best was
last set), unless no round improved on the sentinel yet. -/
theorem best_so_far_invariant (limit threshold rbi patience : ℤ)
    (scorer : ℕ → ℤ) (rewriter : String → ℤ → RewriteMode → String)
    (t0 : String) (m n : ℕ) (s s' : RState) (hmn : m ≤ n)
    (hm : runState limit threshold rbi patience scorer rewriter t0 m = some s)
    (hn : runState limit threshold rbi patience scorer rewriter t0 n = some s') :
    s'.best_score ≤ s.best_score ∧
    (∀ g, s'.prev_smoothed = some g → s'.best_score ≤ g) ∧
    ((s'.best_iter = 0 ∧ s'.best_article = t0 ∧ s'.best_score = 101) ∨
      (1 ≤ s'.best_iter ∧ s'.best_iter ≤ n ∧
        s'.best_score = sAt scorer s'.best_iter ∧
        ∃ sj, runState limit threshold rbi patience scorer rewriter t0
            (s'.best_iter - 1) = some sj ∧
          s'.best_article = sj.test_article)) := by
  have h1 := runState_best_mono limit threshold rbi patience scorer rewriter t0
    m n s s' hmn hm hn
  have h2 := (runState_invariant limit threshold rbi patience scorer rewriter t0
    n s' hn).2.2.2
  exact ⟨h1, h2.1, h2.2.2⟩

/-- C6 witness: both states taken as the initial state of a concrete
run. -/
theorem best_so_far_invariant_witness :
    (0 : ℕ) ≤ 0 ∧
      runState 5 20 2 3 (fun _ => (50 : ℤ)) (fun t _ _ => t) "a" 0 =
        some (initState "a") ∧
      ((initState "a").best_score ≤ (initState "a").best_score ∧
        (∀ g, (initState "a").prev_smoothed = some g →
          (initState "a").best_score ≤ g) ∧
        (((initState "a").best_iter = 0 ∧ (initState "a").best_article = "a" ∧
            (initState "a").best_score = 101) ∨
          (1 ≤ (initState "a").best_iter ∧ (initState "a").best_iter ≤ 0 ∧
            (initState "a").best_score = sAt (fun _ => (50 : ℤ))
              (initState "a").best_iter ∧
            ∃ sj, runState 5 20 2 3 (fun _ => (50 : ℤ)) (fun t _ _ => t) "a"
                ((initState "a").best_iter - 1) = some sj ∧
              (initState "a").best_article = sj.test_article))) :=
  ⟨Nat.le_refl 0, by rw [runState],
    best_so_far_invariant 5 20 2 3 (fun _ => (50 : ℤ)) (fun t _ _ => t) "a" 0 0
      (initState "a") (initState "a") (Nat.le_refl 0) (by rw [runState])
      (by rw [runState])⟩

/-! ## Concrete smoothing evaluations used by the run traces -/

/-- smooth(50, 18) at default tuning: the raw drop of 32 is capped by
max_step 12. -/
lemma smooth_50_18 : smooth_score (some 50) 18 0.6 1 12 = 38 := by
  norm_num [smooth_score, pyRound]

lemma smooth_38_18 : smooth_score (some 38) 18 0.6 1 12 = 30 := by
  norm_num [smooth_score, pyRound]

lemma smooth_30_18 : smooth_score (some 30) 18 0.6 1 12 = 25 := by
  norm_num [smooth_score, pyRound]

lemma smooth_25_18 : smooth_score (some 25) 18 0.6 1 12 = 22 := by
  norm_num [smooth_score, pyRound]

/-- A static raw score is absorbed by the deadband. -/
lemma smooth_80_80 : smooth_score (some 80) 80 0.6 1 12 = 80 := by
  norm_num [smooth_score]

/-! ## Loop-body shape lemmas for symbolic round execution -/

/-- A loop body with smoothed score above threshold and stagnation streak
below patience continues (with either a gentle or an aggressive rewrite)
into a state whose decision-relevant fields are explicit. -/
lemma refineBody_cont_any (limit threshold rbi patience : ℤ) (scorer : ℕ → ℤ)
    (rewriter : String → ℤ → RewriteMode → String) (s : RState) (streak : ℤ)
    (hstreak : (match s.prev_base with
        | some pb =>
          if pb - scorer (s.counter + 1) < rbi then s.no_gain_streak + 1 else 0
        | none => 0) = streak)
    (hth : ¬ smooth_score s.prev_smoothed (scorer (s.counter + 1)) 0.6 1 12
      ≤ threshold)
    (hc2 : ¬ patience ≤ streak) :
    ∃ t' bs ba bi, refineBody limit threshold rbi patience scorer rewriter s =
      Sum.inr ⟨t', s.counter + 1,
        some (smooth_score s.prev_smoothed (scorer (s.counter + 1)) 0.6 1 12),
        bs, ba, bi, streak, some (scorer (s.counter + 1))⟩ := by
  simp only [refineBody]
  rw [if_neg hth, hstreak]
  by_cases hc1 : streak = patience - 1 ∧ ((s.counter + 1 : ℕ) : ℤ) < limit
  · rw [if_pos hc1]
    exact ⟨_, _, _, _, rfl⟩
  · rw [if_neg hc1, if_neg hc2]
    exact ⟨_, _, _, _, rfl⟩

/-- A loop body with smoothed score above threshold, streak at or beyond
patience, and no pending escalation, stops with outcome STAGNATED and
returns the best article. -/
lemma refineBody_stagnates (limit threshold rbi patience : ℤ) (scorer : ℕ → ℤ)
    (rewriter : String → ℤ → RewriteMode → String) (s : RState) (streak : ℤ)
    (hstreak : (match s.prev_base with
        | some pb =>
          if pb - scorer (s.counter + 1) < rbi then s.no_gain_streak + 1 else 0
        | none => 0) = streak)
    (hth : ¬ smooth_score s.prev_smoothed (scorer (s.counter + 1)) 0.6 1 12
      ≤ threshold)
    (hc1 : ¬ (streak = patience - 1 ∧ ((s.counter + 1 : ℕ) : ℤ) < limit))
    (hc2 : patience ≤ streak) :
    ∃ fs, refineBody limit threshold rbi patience scorer rewriter s =
        Sum.inl ⟨fs.best_article, Outcome.STAGNATED, fs⟩ ∧
      fs.counter = s.counter + 1 := by
  cases hb : refineBody limit threshold rbi patience scorer rewriter s with
  | inl r =>
    obtain ⟨hc, _, _, _, _, hout⟩ :=
      refineBody_inl limit threshold rbi patience scorer rewriter s r hb
    rcases hout with ⟨_, hth2, _⟩ | ⟨ho, _, ht⟩
    · exact absurd hth2 hth
    · refine ⟨r.final, ?_, hc⟩
      rw [← ht, ← ho]
  | inr s' =>
    exfalso
    simp only [refineBody] at hb
    rw [if_neg hth, hstreak, if_neg hc1] at hb
    rw [if_pos hc2] at hb
    exact absurd hb (by simp)

/-- C4 (amended): with the default tuning (requiredImprovement 2,
patience 3), a scorer whose raw scores (in [1,100], all above threshold)
improve by less than 2 between each of the first three consecutive round
pairs drives the run to STAGNATED exactly at round patience + 1 = 4
(not at round patience: the streak can only start counting from round 2,
and the one-shot aggressive escalation of round 3 defers the check),
returning the best-so-far article, provided limit ≥ 4. -/
theorem stagnation_terminates_at_patience_plus_one (limit threshold : ℤ)
    (scorer : ℕ → ℤ) (rewriter : String → ℤ → RewriteMode → String)
    (t0 : String)
    (hr : ∀ k, 1 ≤ k → k ≤ 4 → 1 ≤ scorer k ∧ scorer k ≤ 100)
    (hT : ∀ k, 1 ≤ k → k ≤ 4 → threshold < scorer k)
    (hstag : ∀ k, 1 ≤ k → k ≤ 3 → scorer k - scorer (k + 1) < 2)
    (hlim : 4 ≤ limit) :
    (refine_article scorer rewriter t0 limit threshold 2 3).outcome =
        Outcome.STAGNATED ∧
      (refine_article scorer rewriter t0 limit threshold 2 3).final.counter = 4 ∧
      (refine_article scorer rewriter t0 limit threshold 2 3).text =
        (refine_article scorer rewriter t0 limit threshold 2 3).final.best_article
    := by
  have hr1 := hr 1 (by norm_num) (by norm_num)
  have hr2 := hr 2 (by norm_num) (by norm_num)
  have hr3 := hr 3 (by norm_num) (by norm_num)
  have hr4 := hr 4 (by norm_num) (by norm_num)
  have hT1 := hT 1 (by norm_num) (by norm_num)
  have hT2 := hT 2 (by norm_num) (by norm_num)
  have hT3 := hT 3 (by norm_num) (by norm_num)
  have hT4 := hT 4 (by norm_num) (by norm_num)
  -- round 1: smoothed score is the raw score
  have hth1 : ¬ smooth_score (initState t0).prev_smoothed
      (scorer ((initState t0).counter + 1)) 0.6 1 12 ≤ threshold := by
    show ¬ scorer 1 ≤ threshold
    omega
  obtain ⟨t1, bs1, ba1, bi1, hb1⟩ := refineBody_cont_any limit threshold 2 3
    scorer rewriter (initState t0) 0 rfl hth1 (by norm_num)
  have hb1' : refineBody limit threshold 2 3 scorer rewriter (initState t0) =
      Sum.inr ⟨t1, 1, some (scorer 1), bs1, ba1, bi1, 0, some (scorer 1)⟩ := hb1
  -- round 2
  have hmg2 := smooth_score_between (scorer 1) (scorer 2) hr1.1 hr1.2 hr2.1 hr2.2
  have hth2 : ¬ smooth_score (some (scorer 1)) (scorer 2) 0.6 1 12 ≤ threshold := by
    omega
  have hstreak2 : (if scorer 1 - scorer (1 + 1) < 2 then (0 : ℤ) + 1 else 0) = 1 := by
    rw [if_pos (hstag 1 (by norm_num) (by norm_num))]
    norm_num
  obtain ⟨t2, bs2, ba2, bi2, hb2⟩ := refineBody_cont_any limit threshold 2 3
    scorer rewriter ⟨t1, 1, some (scorer 1), bs1, ba1, bi1, 0, some (scorer 1)⟩
    1 hstreak2 hth2 (by norm_num)
  have hb2' : refineBody limit threshold 2 3 scorer rewriter
      ⟨t1, 1, some (scorer 1), bs1, ba1, bi1, 0, some (scorer 1)⟩ =
      Sum.inr ⟨t2, 2, some (smooth_score (some (scorer 1)) (scorer 2) 0.6 1 12),
        bs2, ba2, bi2, 1, some (scorer 2)⟩ := hb2
  -- round 3 (with the one-shot aggressive escalation)
  have hmg2r : 1 ≤ smooth_score (some (scorer 1)) (scorer 2) 0.6 1 12 ∧
      smooth_score (some (scorer 1)) (scorer 2) 0.6 1 12 ≤ 100 := by omega
  have hmg3 := smooth_score_between
    (smooth_score (some (scorer 1)) (scorer 2) 0.6 1 12) (scorer 3)
    hmg2r.1 hmg2r.2 hr3.1 hr3.2
  have hth3 : ¬ smooth_score
      (some (smooth_score (some (scorer 1)) (scorer 2) 0.6 1 12)) (scorer 3)
      0.6 1 12 ≤ threshold := by omega
  have hstreak3 : (if scorer 2 - scorer (2 + 1) < 2 then (1 : ℤ) + 1 else 0) = 2 := by
    rw [if_pos (hstag 2 (by norm_num) (by norm_num))]
    norm_num
  obtain ⟨t3, bs3, ba3, bi3, hb3⟩ := refineBody_cont_any limit threshold 2 3
    scorer rewriter
    ⟨t2, 2, some (smooth_score (some (scorer 1)) (scorer 2) 0.6 1 12),
      bs2, ba2, bi2, 1, some (scorer 2)⟩
    2 hstreak3 hth3 (by norm_num)
  have hb3' : refineBody limit threshold 2 3 scorer rewriter
      ⟨t2, 2, some (smooth_score (some (scorer 1)) (scorer 2) 0.6 1 12),
        bs2, ba2, bi2, 1, some (scorer 2)⟩ =
      Sum.inr ⟨t3, 3,
        some (smooth_score
          (some (smooth_score (some (scorer 1)) (scorer 2) 0.6 1 12)) (scorer 3)
          0.6 1 12),
        bs3, ba3, bi3, 2, some (scorer 3)⟩ := hb3
  -- round 4: the streak reaches patience and the run stagnates
  have hmg3r : 1 ≤ smooth_score
        (some (smooth_score (some (scorer 1)) (scorer 2) 0.6 1 12)) (scorer 3)
        0.6 1 12 ∧
      smooth_score
        (some (smooth_score (some (scorer 1)) (scorer 2) 0.6 1 12)) (scorer 3)
        0.6 1 12 ≤ 100 := by omega
  have hmg4 := smooth_score_between
    (smooth_score
      (some (smooth_score (some (scorer 1)) (scorer 2) 0.6 1 12)) (scorer 3)
      0.6 1 12)
    (scorer 4) hmg3r.1 hmg3r.2 hr4.1 hr4.2
  have hth4 : ¬ smooth_score
      (some (smooth_score
        (some (smooth_score (some (scorer 1)) (scorer 2) 0.6 1 12)) (scorer 3)
        0.6 1 12))
      (scorer 4) 0.6 1 12 ≤ threshold := by omega
  have hstreak4 : (if scorer 3 - scorer (3 + 1) < 2 then (2 : ℤ) + 1 else 0) = 3 := by
    rw [if_pos (hstag 3 (by norm_num) (by norm_num))]
    norm_num
  obtain ⟨fs, hb4, hcnt4⟩ := refineBody_stagnates limit threshold 2 3
    scorer rewriter
    ⟨t3, 3,
      some (smooth_score
        (some (smooth_score (some (scorer 1)) (scorer 2) 0.6 1 12)) (scorer 3)
        0.6 1 12),
      bs3, ba3, bi3, 2, some (scorer 3)⟩
    3 hstreak4 hth4 (by norm_num) (by norm_num)
  -- assemble the run
  obtain ⟨f, hf⟩ : ∃ f : ℕ, limit.toNat = f + 4 := ⟨limit.toNat - 4, by omega⟩
  have e0 : refine_article scorer rewriter t0 limit threshold 2 3 =
      refineLoop limit threshold 2 3 scorer rewriter (f + 4) (initState t0) := by
    rw [refine_article, hf]
  have e1 : refineLoop limit threshold 2 3 scorer rewriter (f + 4) (initState t0) =
      refineLoop limit threshold 2 3 scorer rewriter (f + 3)
        ⟨t1, 1, some (scorer 1), bs1, ba1, bi1, 0, some (scorer 1)⟩ :=
    refineLoop_succ limit threshold 2 3 scorer rewriter (f + 3) _ _ hb1'
  have e2 : refineLoop limit threshold 2 3 scorer rewriter (f + 3)
        ⟨t1, 1, some (scorer 1), bs1, ba1, bi1, 0, some (scorer 1)⟩ =
      refineLoop limit threshold 2 3 scorer rewriter (f + 2)
        ⟨t2, 2, some (smooth_score (some (scorer 1)) (scorer 2) 0.6 1 12),
          bs2, ba2, bi2, 1, some (scorer 2)⟩ :=
    refineLoop_succ limit threshold 2 3 scorer rewriter (f + 2) _ _ hb2'
  have e3 : refineLoop limit threshold 2 3 scorer rewriter (f + 2)
        ⟨t2, 2, some (smooth_score (some (scorer 1)) (scorer 2) 0.6 1 12),
          bs2, ba2, bi2, 1, some (scorer 2)⟩ =
      refineLoop limit threshold 2 3 scorer rewriter (f + 1)
        ⟨t3, 3,
          some (smooth_score
            (some (smooth_score (some (scorer 1)) (scorer 2) 0.6 1 12)) (scorer 3)
            0.6 1 12),
          bs3, ba3, bi3, 2, some (scorer 3)⟩ :=
    refineLoop_succ limit threshold 2 3 scorer rewriter (f + 1) _ _ hb3'
  have e4 : refineLoop limit threshold 2 3 scorer rewriter (f + 1)
        ⟨t3, 3,
          some (smooth_score
            (some (smooth_score (some (scorer 1)) (scorer 2) 0.6 1 12)) (scorer 3)
            0.6 1 12),
          bs3, ba3, bi3, 2, some (scorer 3)⟩ =
      ⟨fs.best_article, Outcome.STAGNATED, fs⟩ :=
    refineLoop_stop limit threshold 2 3 scorer rewriter f _ _ hb4
  have hrun : refine_article scorer rewriter t0 limit threshold 2 3 =
      ⟨fs.best_article, Outcome.STAGNATED, fs⟩ :=
    ((((e0.trans e1).trans e2).trans e3).trans e4)
  rw [hrun]
  exact ⟨rfl, hcnt4, rfl⟩

/-- C4 witness: a constant scorer 90 with threshold 30 and limit 7. -/
theorem stagnation_terminates_witness :
    (4 : ℤ) ≤ 7 ∧
      ((refine_article (fun _ => (90 : ℤ)) (fun t _ _ => t) "a" 7 30 2
          3).outcome = Outcome.STAGNATED ∧
        (refine_article (fun _ => (90 : ℤ)) (fun t _ _ => t) "a" 7 30 2
          3).final.counter = 4 ∧
        (refine_article (fun _ => (90 : ℤ)) (fun t _ _ => t) "a" 7 30 2
            3).text =
          (refine_article (fun _ => (90 : ℤ)) (fun t _ _ => t) "a" 7 30 2
            3).final.best_article) :=
  ⟨by decide,
    stagnation_terminates_at_patience_plus_one 7 30 (fun _ => (90 : ℤ))
      (fun t _ _ => t) "a" (fun k _ _ => ⟨by simp, by simp⟩)
      (fun k _ _ => by simp) (fun k _ _ => by simp) (by decide)⟩

/-- C1 counterexample: with threshold 20, limit 5 and the scorer sequence
50, 18, 18, 18, 18, the raw score 18 of round 2 is at or below the
threshold, yet the run does not stop in round 2 (or within one further
round) in CONVERGED: smoothing caps the drop (smoothed scores 50, 38, 30,
25, 22 stay above 20) and the run ends STAGNATED after 5 rounds. -/
theorem convergence_within_one_round_counterexample :
    (refine_article (fun k => if k = 1 then (50 : ℤ) else 18) (fun t _ _ => t)
        "a" 5 20 2 3).outcome = Outcome.STAGNATED ∧
      (refine_article (fun k => if k = 1 then (50 : ℤ) else 18) (fun t _ _ => t)
        "a" 5 20 2 3).final.counter = 5 := by
  have hb1 : refineBody 5 20 2 3 (fun k => if k = 1 then (50 : ℤ) else 18)
      (fun t _ _ => t) (initState "a") =
      Sum.inr ⟨"a", 1, some 50, 50, "a", 1, 0, some 50⟩ := by
    simp [refineBody, initState, smooth_score]
  have hb2 : refineBody 5 20 2 3 (fun k => if k = 1 then (50 : ℤ) else 18)
      (fun t _ _ => t) ⟨"a", 1, some 50, 50, "a", 1, 0, some 50⟩ =
      Sum.inr ⟨"a", 2, some 38, 38, "a", 2, 0, some 18⟩ := by
    simp [refineBody, smooth_50_18]
  have hb3 : refineBody 5 20 2 3 (fun k => if k = 1 then (50 : ℤ) else 18)
      (fun t _ _ => t) ⟨"a", 2, some 38, 38, "a", 2, 0, some 18⟩ =
      Sum.inr ⟨"a", 3, some 30, 30, "a", 3, 1, some 18⟩ := by
    simp [refineBody, smooth_38_18]
  have hb4 : refineBody 5 20 2 3 (fun k => if k = 1 then (50 : ℤ) else 18)
      (fun t _ _ => t) ⟨"a", 3, some 30, 30, "a", 3, 1, some 18⟩ =
      Sum.inr ⟨"a", 4, some 25, 25, "a", 4, 2, some 18⟩ := by
    simp [refineBody, smooth_30_18]
  have hb5 : refineBody 5 20 2 3 (fun k => if k = 1 then (50 : ℤ) else 18)
      (fun t _ _ => t) ⟨"a", 4, some 25, 25, "a", 4, 2, some 18⟩ =
      Sum.inl ⟨"a", Outcome.STAGNATED, ⟨"a", 5, some 22, 22, "a", 5, 3, some 18⟩⟩
      := by
    simp [refineBody, smooth_25_18]
  have e0 : refine_article (fun k => if k = 1 then (50 : ℤ) else 18)
      (fun t _ _ => t) "a" 5 20 2 3 =
      refineLoop 5 20 2 3 (fun k => if k = 1 then (50 : ℤ) else 18)
        (fun t _ _ => t) 5 (initState "a") := rfl
  have e1 : refineLoop 5 20 2 3 (fun k => if k = 1 then (50 : ℤ) else 18)
        (fun t _ _ => t) 5 (initState "a") =
      refineLoop 5 20 2 3 (fun k => if k = 1 then (50 : ℤ) else 18)
        (fun t _ _ => t) 4 ⟨"a", 1, some 50, 50, "a", 1, 0, some 50⟩ :=
    refineLoop_succ 5 20 2 3 _ _ 4 _ _ hb1
  have e2 : refineLoop 5 20 2 3 (fun k => if k = 1 then (50 : ℤ) else 18)
        (fun t _ _ => t) 4 ⟨"a", 1, some 50, 50, "a", 1, 0, some 50⟩ =
      refineLoop 5 20 2 3 (fun k => if k = 1 then (50 : ℤ) else 18)
        (fun t _ _ => t) 3 ⟨"a", 2, some 38, 38, "a", 2, 0, some 18⟩ :=
    refineLoop_succ 5 20 2 3 _ _ 3 _ _ hb2
  have e3 : refineLoop 5 20 2 3 (fun k => if k = 1 then (50 : ℤ) else 18)
        (fun t _ _ => t) 3 ⟨"a", 2, some 38, 38, "a", 2, 0, some 18⟩ =
      refineLoop 5 20 2 3 (fun k => if k = 1 then (50 : ℤ) else 18)
        (fun t _ _ => t) 2 ⟨"a", 3, some 30, 30, "a", 3, 1, some 18⟩ :=
    refineLoop_succ 5 20 2 3 _ _ 2 _ _ hb3
  have e4 : refineLoop 5 20 2 3 (fun k => if k = 1 then (50 : ℤ) else 18)
        (fun t _ _ => t) 2 ⟨"a", 3, some 30, 30, "a", 3, 1, some 18⟩ =
      refineLoop 5 20 2 3 (fun k => if k = 1 then (50 : ℤ) else 18)
        (fun t _ _ => t) 1 ⟨"a", 4, some 25, 25, "a", 4, 2, some 18⟩ :=
    refineLoop_succ 5 20 2 3 _ _ 1 _ _ hb4
  have e5 : refineLoop 5 20 2 3 (fun k => if k = 1 then (50 : ℤ) else 18)
        (fun t _ _ => t) 1 ⟨"a", 4, some 25, 25, "a", 4, 2, some 18⟩ =
      ⟨"a", Outcome.STAGNATED, ⟨"a", 5, some 22, 22, "a", 5, 3, some 18⟩⟩ :=
    refineLoop_stop 5 20 2 3 _ _ 0 _ _ hb5
  have hrun := ((((e0.trans e1).trans e2).trans e3).trans e4).trans e5
  rw [hrun]
  exact ⟨rfl, rfl⟩

/-- C4 counterexample: the constant scorer 80 (raw score decreases by
0 < 2 every round) with defaults and limit 5 terminates in STAGNATED at
round 4 = patience + 1, not at or before round patience = 3: the streak
only starts counting at round 2 and the round-3 escalation defers the
stagnation check by one more round. -/
theorem stagnation_within_patience_counterexample :
    (refine_article (fun _ => (80 : ℤ)) (fun t _ _ => t) "a" 5 20 2 3).outcome =
        Outcome.STAGNATED ∧
      (refine_article (fun _ => (80 : ℤ)) (fun t _ _ => t) "a" 5 20 2
        3).final.counter = 4 ∧
      ¬ (refine_article (fun _ => (80 : ℤ)) (fun t _ _ => t) "a" 5 20 2
        3).final.counter ≤ 3 := by
  have hb1 : refineBody 5 20 2 3 (fun _ => (80 : ℤ)) (fun t _ _ => t)
      (initState "a") = Sum.inr ⟨"a", 1, some 80, 80, "a", 1, 0, some 80⟩ := by
    simp [refineBody, initState, smooth_score]
  have hb2 : refineBody 5 20 2 3 (fun _ => (80 : ℤ)) (fun t _ _ => t)
      ⟨"a", 1, some 80, 80, "a", 1, 0, some 80⟩ =
      Sum.inr ⟨"a", 2, some 80, 80, "a", 1, 1, some 80⟩ := by
    simp [refineBody, smooth_80_80]
  have hb3 : refineBody 5 20 2 3 (fun _ => (80 : ℤ)) (fun t _ _ => t)
      ⟨"a", 2, some 80, 80, "a", 1, 1, some 80⟩ =
      Sum.inr ⟨"a", 3, some 80, 80, "a", 1, 2, some 80⟩ := by
    simp [refineBody, smooth_80_80]
  have hb4 : refineBody 5 20 2 3 (fun _ => (80 : ℤ)) (fun t _ _ => t)
      ⟨"a", 3, some 80, 80, "a", 1, 2, some 80⟩ =
      Sum.inl ⟨"a", Outcome.STAGNATED, ⟨"a", 4, some 80, 80, "a", 1, 3, some 80⟩⟩
      := by
    simp [refineBody, smooth_80_80]
  have e0 : refine_article (fun _ => (80 : ℤ)) (fun t _ _ => t) "a" 5 20 2 3 =
      refineLoop 5 20 2 3 (fun _ => (80 : ℤ)) (fun t _ _ => t) 5 (initState "a")
      := rfl
  have e1 : refineLoop 5 20 2 3 (fun _ => (80 : ℤ)) (fun t _ _ => t) 5
        (initState "a") =
      refineLoop 5 20 2 3 (fun _ => (80 : ℤ)) (fun t _ _ => t) 4
        ⟨"a", 1, some 80, 80, "a", 1, 0, some 80⟩ :=
    refineLoop_succ 5 20 2 3 _ _ 4 _ _ hb1
  have e2 : refineLoop 5 20 2 3 (fun _ => (80 : ℤ)) (fun t _ _ => t) 4
        ⟨"a", 1, some 80, 80, "a", 1, 0, some 80⟩ =
      refineLoop 5 20 2 3 (fun _ => (80 : ℤ)) (fun t _ _ => t) 3
        ⟨"a", 2, some 80, 80, "a", 1, 1, some 80⟩ :=
    refineLoop_succ 5 20 2 3 _ _ 3 _ _ hb2
  have e3 : refineLoop 5 20 2 3 (fun _ => (80 : ℤ)) (fun t _ _ => t) 3
        ⟨"a", 2, some 80, 80, "a", 1, 1, some 80⟩ =
      refineLoop 5 20 2 3 (fun _ => (80 : ℤ)) (fun t _ _ => t) 2
        ⟨"a", 3, some 80, 80, "a", 1, 2, some 80⟩ :=
    refineLoop_succ 5 20 2 3 _ _ 2 _ _ hb3
  have e4 : refineLoop 5 20 2 3 (fun _ => (80 : ℤ)) (fun t _ _ => t) 2
        ⟨"a", 3, some 80, 80, "a", 1, 2, some 80⟩ =
      ⟨"a", Outcome.STAGNATED, ⟨"a", 4, some 80, 80, "a", 1, 3, some 80⟩⟩ :=
    refineLoop_stop 5 20 2 3 _ _ 1 _ _ hb4
  have hrun := (((e0.trans e1).trans e2).trans e3).trans e4
  rw [hrun]
  exact ⟨rfl, rfl, by decide⟩

end GoodNews
